import Mathlib

/-!
Verification of the connection/session lifecycle manager of the DevOps
orchestration server (source: `src/main.py`).

The Python code is shallowly embedded: Python dicts (and the two sqlite
tables that mirror them) become association lists with insert-or-replace
and delete semantics; wall-clock timestamps become `Nat` parameters
threaded explicitly; functions that interact with external services
(the ADK session service, the agent runtime) take the outcome of that
interaction as an explicit `Except`/list parameter; `async` functions
that mutate shared state become state-passing functions.  Reason strings
and message texts are kept byte-for-byte (Python `f`-strings are
reproduced with explicit concatenation).
-/

set_option linter.unusedVariables false

namespace DevOpsServer

/-! ## Association lists: the embedding of Python dict / keyed sqlite table -/

/-- Lookup of a key, mirroring Python `d[k]` / `SELECT ... WHERE key = ?`. -/
def alLookup {K V : Type} [DecidableEq K] (k : K) : List (K × V) → Option V
  | [] => none
  | (k1, v) :: t => if k1 = k then some v else alLookup k t

/-- Insert-or-replace, mirroring Python `d[k] = v` / `INSERT OR REPLACE`. -/
def alInsert {K V : Type} [DecidableEq K] (k : K) (v : V) (l : List (K × V)) :
    List (K × V) :=
  (k, v) :: l.filter (fun p => p.1 ≠ k)

/-- Deletion, mirroring Python `del d[k]` / `DELETE ... WHERE key = ?`. -/
def alErase {K V : Type} [DecidableEq K] (k : K) (l : List (K × V)) :
    List (K × V) :=
  l.filter (fun p => p.1 ≠ k)

theorem alLookup_alInsert_self {K V : Type} [DecidableEq K] (k : K) (v : V)
    (l : List (K × V)) : alLookup k (alInsert k v l) = some v := by
  simp [alInsert, alLookup]

theorem alLookup_alErase_self {K V : Type} [DecidableEq K] (k : K)
    (l : List (K × V)) : alLookup k (alErase k l) = none := by
  induction l with
  | nil => rfl
  | cons p t ih =>
    obtain ⟨a, b⟩ := p
    by_cases hak : a = k
    · simpa [alErase, List.filter_cons, hak] using ih
    · simpa [alErase, List.filter_cons, alLookup, hak] using ih

theorem alLookup_alErase_ne {K V : Type} [DecidableEq K] {k k1 : K}
    (l : List (K × V)) (h : k1 ≠ k) :
    alLookup k1 (alErase k l) = alLookup k1 l := by
  induction l with
  | nil => rfl
  | cons p t ih =>
    obtain ⟨a, b⟩ := p
    by_cases hak : a = k
    · subst hak
      have hk1 : a ≠ k1 := fun e => h e.symm
      simpa [alErase, List.filter_cons, alLookup, hk1] using ih
    · by_cases hak1 : a = k1
      · subst hak1
        simp [alErase, List.filter_cons, alLookup, hak]
      · simpa [alErase, List.filter_cons, alLookup, hak, hak1] using ih

theorem alLookup_alInsert_ne {K V : Type} [DecidableEq K] {k k1 : K} (v : V)
    (l : List (K × V)) (h : k1 ≠ k) :
    alLookup k1 (alInsert k v l) = alLookup k1 l := by
  have hk : k ≠ k1 := fun e => h e.symm
  simpa [alInsert, alErase, alLookup, hk] using alLookup_alErase_ne (k := k) l h

/-! ## Resumption Token Registry (`src/main.py` lines 757-829)

The sqlite table `session_resumption_tokens` becomes an association list
from token strings to rows, and `datetime` values become `Nat` seconds.
The sqlite round trip is modelled as value-preserving: a row's
`expires_at` is the unix timestamp it denotes, so the check
`datetime.fromtimestamp(expires_at) > datetime.now()` becomes
`now < expires_at`.  (The source stores `datetime.fromtimestamp(...)` at
insert and re-applies `fromtimestamp` to the value read back; this
adapter-level conversion pair, whose behaviour depends on the sqlite3
driver's type adapters rather than on this code, is elided.) -/

/-- One row of the `session_resumption_tokens` table. -/
structure TokenRow where
  session_id : String
  user_id : String
  expires_at : Nat
deriving DecidableEq, Repr

/-- The `session_resumption_tokens` table, keyed by token. -/
abbrev TokenTable := List (String × TokenRow)

/-- Result of `validate_resumption_token`: the Python dict
`\x7b"session_id": ..., "user_id": ..., "valid": True\x7d` or
`\x7b"valid": False, "reason": ...\x7d`. -/
inductive VResult where
  | valid (session_id user_id : String)
  | invalid (reason : String)
deriving DecidableEq, Repr

/-- Embeds `ADKManager.create_resumption_token` (main.py:757): inserts a
row whose expiry is 24 hours past `now`.  The uuid4 token value is passed
in as `token`. -/
def create_resumption_token (tbl : TokenTable) (token session_id user_id : String)
    (now : Nat) : TokenTable :=
  alInsert token ⟨session_id, user_id, now + 24 * 60 * 60⟩ tbl

/-- Embeds `ADKManager.invalidate_resumption_token` (main.py:815):
`DELETE FROM session_resumption_tokens WHERE token = ?`. -/
def invalidate_resumption_token (tbl : TokenTable) (token : String) : TokenTable :=
  alErase token tbl

/-- Embeds `ADKManager.validate_resumption_token` (main.py:783): select the
row; if present and unexpired return the bound ids (the table is NOT
modified); if present and expired, delete the row and report `"expired"`;
if absent report `"not found"`. -/
def validate_resumption_token (tbl : TokenTable) (token : String) (now : Nat) :
    VResult × TokenTable :=
  match alLookup token tbl with
  | some row =>
      if now < row.expires_at then
        (.valid row.session_id row.user_id, tbl)
      else
        (.invalid "expired", invalidate_resumption_token tbl token)
  | none => (.invalid "not found", tbl)

/-! ## Session Store read path (`get_session_history`, main.py:729-755) -/

/-- A stored history event as the read path sees it: `event.author`,
`event.content` (already rendered through `str`, `none` when the Python
attribute is `None`), and `event.timestamp`. -/
structure HistEvent where
  author : String
  content : Option String
  timestamp : Option Nat
deriving DecidableEq, Repr

/-- A session as returned by the external session service read path. -/
structure StoredSession where
  id : String
  events : List HistEvent
deriving DecidableEq, Repr

/-- One item of the history list built by `get_session_history`. -/
structure HistItem where
  author : String
  content : String
  timestamp : Option Nat
deriving DecidableEq, Repr

/-- Embeds `ADKManager.get_session_history` (main.py:729).  `fetch` is the
outcome of the awaited `session_service.get_session` call: a storage
error (the `except` branch), a missing session (`if not session`), or a
session.  Events whose `content` is `None` are skipped; all three failure
shapes collapse to the empty list. -/
def get_session_history (fetch : Except String (Option StoredSession)) :
    List HistItem :=
  match fetch with
  | .error _ => []
  | .ok none => []
  | .ok (some s) =>
      s.events.filterMap fun e =>
        e.content.map fun c => ⟨e.author, c, e.timestamp⟩

/-- Result dict of a successful `POST /sessions/resume` (main.py:1153). -/
structure ResumeOk where
  session_id : String
  user_id : String
  history : List HistItem
  resumed : Bool
deriving DecidableEq, Repr

/-- Embeds the `resume_session` endpoint (main.py:1137): validate the
token; on success return session id, user id and history (the token is
not touched further); on failure raise HTTP 400 with detail
`"Invalid resumption token: reason"`, modelled as `Except.error`. -/
def resume_session (tbl : TokenTable)
    (fetch : String → String → Except String (Option StoredSession))
    (token : String) (now : Nat) : Except String ResumeOk × TokenTable :=
  match validate_resumption_token tbl token now with
  | (.valid sid uid, tbl1) =>
      (.ok ⟨sid, uid, get_session_history (fetch sid uid), true⟩, tbl1)
  | (.invalid reason, tbl1) =>
      (.error ("Invalid resumption token: " ++ reason), tbl1)

/-! ## Python string helpers

Python `str.strip`, `str.lower`, substring membership (`needle in hay`),
`str.startswith`, slicing `s[:n]` and `len` are embedded over the
character list `String.data`. -/

/-- Python whitespace test used by `str.strip`. -/
def pyWS (c : Char) : Bool := c.isWhitespace

/-- Strip characters satisfying `pyWS` from both ends of a list. -/
def stripChars (l : List Char) : List Char :=
  ((l.dropWhile pyWS).reverse.dropWhile pyWS).reverse

/-- Embedding of Python `str.strip()`. -/
def pyStrip (s : String) : String := ⟨stripChars s.data⟩

/-- Does `l` start with `pre`? -/
def startsWithCh : List Char → List Char → Bool
  | [], _ => true
  | _ :: _, [] => false
  | a :: as, b :: bs => a = b && startsWithCh as bs

/-- Does `l` contain `needle` as a contiguous run? -/
def hasSubstrCh (needle : List Char) : List Char → Bool
  | [] => startsWithCh needle []
  | c :: t => startsWithCh needle (c :: t) || hasSubstrCh needle t

/-- Embedding of Python `needle in hay` on strings. -/
def strContains (hay needle : String) : Bool := hasSubstrCh needle.data hay.data

/-- Embedding of Python `s.startswith(pre)`. -/
def strStartsWith (s pre : String) : Bool := startsWithCh pre.data s.data

/-- Embedding of Python `s.lower()` (the code only lowercases ASCII text). -/
def pyLower (s : String) : String := ⟨s.data.map Char.toLower⟩

/-- Embedding of Python slicing `s[:n]`. -/
def strTake (s : String) (n : Nat) : String := ⟨s.data.take n⟩

/-- Embedding of Python `len(s)`. -/
def strLen (s : String) : Nat := s.data.length

/-- Embedding of `part.text.split(":")[-1].strip()` (main.py:317). -/
def lastColonSegment (t : String) : String :=
  pyStrip ((t.splitOn ":").getLastD t)

/-! ## Runtime events (the ADK event stream, as `main.py` probes it)

The code inspects events with `hasattr`/truthiness probing; the embedding
fixes the field set the code actually reads.  A `none` field models both
an absent attribute and an attribute that is `None`, since the code
always guards with `hasattr(x, f) and x.f`.  Binary payloads are byte
lists. -/

/-- A `part.inline_data` value: mime type plus optional raw bytes. -/
structure InlineData where
  mime_type : String
  data : Option (List Nat)
deriving DecidableEq, Repr

/-- A `part.function_call` value: tool name and arguments dict. -/
structure FunctionCall where
  name : String
  args : List (String × String)
deriving DecidableEq, Repr

/-- A `part.function_response` value.  `response` is the `str` rendering
of the response dict, which is all the code ever uses of it. -/
structure FunctionResponse where
  name : String
  response : String
deriving DecidableEq, Repr

/-- One element of `event.content.parts`. -/
structure EvPart where
  function_call : Option FunctionCall := none
  function_response : Option FunctionResponse := none
  text : Option String := none
  inline_data : Option InlineData := none
deriving DecidableEq, Repr

/-- The `event.content` attribute: either a `types.Content` with parts, or
any other object, kept as its `str` rendering (the code only calls
`str(event.content)` on it). -/
inductive EvContent where
  | content (parts : List EvPart)
  | raw (s : String)
deriving DecidableEq, Repr

/-- An event yielded by `runner.run_async`: an object with optional
`author`, `content` and `text` attributes, or a plain string (the code
probes for `isinstance(event, str)`). -/
inductive RtEvent where
  | ev (author : Option String) (content : Option EvContent) (textAttr : Option String)
  | str (s : String)
deriving DecidableEq, Repr

/-- Python truthiness of `event.author` (a missing or empty author is
falsy). -/
def authorTruthy : Option String → Bool
  | none => false
  | some a => a != ""

/-- Python truthiness of `event.content`: a `types.Content` object is
always truthy, any other content is truthy as the string it renders to. -/
def contentTruthy : Option EvContent → Bool
  | none => false
  | some (.content _) => true
  | some (.raw s) => s != ""

/-- The guard `hasattr(event, "content") and event.content and
hasattr(event.content, "parts")` used before every part loop. -/
def eventParts : RtEvent → Option (List EvPart)
  | .ev _ (some (.content ps)) _ => some ps
  | _ => none

def eventAuthor : RtEvent → Option String
  | .ev a _ _ => a
  | .str _ => none

def eventContent : RtEvent → Option EvContent
  | .ev _ c _ => c
  | .str _ => none

/-! ## Event Translator (`extract_agent_and_tool_info`, main.py:282-329) -/

/-- Classification of the first classifiable part of an event. -/
inductive PartClass where
  | call (fc : FunctionCall)
  | resp (fr : FunctionResponse)
  | txt (t : String)
deriving DecidableEq, Repr

/-- The part loop of `extract_agent_and_tool_info`: scan the parts in
order and stop (`break`) at the first one carrying a function call, a
function response, or truthy (nonempty) text. -/
def firstClass : List EvPart → Option PartClass
  | [] => none
  | p :: ps =>
    match p.function_call with
    | some fc => some (.call fc)
    | none =>
      match p.function_response with
      | some fr => some (.resp fr)
      | none =>
        match p.text with
        | some t => if t != "" then some (.txt t) else firstClass ps
        | none => firstClass ps

/-- The `content` slot of the info dict built by
`extract_agent_and_tool_info`: tool arguments, a tool response, or text. -/
inductive InfoVal where
  | args (a : List (String × String))
  | resp (r : String)
  | txt (t : String)
deriving DecidableEq, Repr

/-- The info dict returned by `extract_agent_and_tool_info`. -/
structure EventInfo where
  event_type : Option String
  agent_name : Option String
  tool_name : Option String
  content : Option InfoVal
  is_transfer : Bool
deriving DecidableEq, Repr

/-- The agent-transfer marker test (main.py:312): the lowercased text
contains `"transferring to"` or `"transfer to"`. -/
def transferMarker (t : String) : Bool :=
  strContains (pyLower t) "transferring to" || strContains (pyLower t) "transfer to"

/-- Embeds `extract_agent_and_tool_info` (main.py:282): record the author
as `agent_name`, classify by the first classifiable part, and fall back
to `agent_response` when nothing matched but the event has a truthy
author and truthy content. -/
def extract_agent_and_tool_info (e : RtEvent) : EventInfo :=
  match e with
  | .str _ => ⟨none, none, none, none, false⟩
  | .ev author content _ =>
    let agent0 : Option String := if authorTruthy author then author else none
    let base : EventInfo := ⟨none, agent0, none, none, false⟩
    let info : EventInfo :=
      match content with
      | some (.content ps) =>
        match firstClass ps with
        | some (.call fc) =>
            { base with event_type := some "tool_call", tool_name := some fc.name,
                        content := some (.args fc.args) }
        | some (.resp fr) =>
            { base with event_type := some "tool_response", tool_name := some fr.name,
                        content := some (.resp fr.response) }
        | some (.txt t) =>
            if transferMarker t then
              { base with event_type := some "agent_transfer", is_transfer := true,
                          agent_name := if strContains t ":" then some (lastColonSegment t)
                                        else base.agent_name }
            else
              { base with event_type := some "agent_response", content := some (.txt t) }
        | none => base
      | _ => base
    if info.event_type.isNone && authorTruthy author && contentTruthy content then
      { info with event_type := some "agent_response" }
    else
      info

/-- The audio scan of `process_message` (main.py:542-549): walk all parts
and remember the `data` of the last part whose `inline_data` mime type
starts with `audio/` (later matches overwrite earlier ones, even with
absent data). -/
def audioScanParts : List EvPart → Option (List Nat) → Option (List Nat)
  | [], acc => acc
  | p :: ps, acc =>
    let acc1 := match p.inline_data with
      | some idata => if strStartsWith idata.mime_type "audio/" then idata.data else acc
      | none => acc
    audioScanParts ps acc1

def audioScan (e : RtEvent) : Option (List Nat) :=
  match eventParts e with
  | some ps => audioScanParts ps none
  | none => none

/-- Python truthiness of the scanned `audio_data` (absent or empty bytes
are falsy). -/
def audioTruthy : Option (List Nat) → Bool
  | some l => !l.isEmpty
  | none => false

/-! ## Base64 (`array_buffer_to_base64`, main.py:269) -/

def base64Table : List Char :=
  "ABCDEFGHIJKLMNOPQRSTUVWXYZabcdefghijklmnopqrstuvwxyz0123456789+/".data

def b64c (n : Nat) : Char := base64Table.getD n '?'

/-- Standard base64 of a byte list, embedding
`base64.b64encode(buffer).decode("ascii")`. -/
def base64Encode : List Nat → String
  | [] => ""
  | [a] =>
      String.mk [b64c (a / 4 % 64), b64c (a % 4 * 16 % 64)] ++ "=="
  | [a, b] =>
      String.mk [b64c (a / 4 % 64), b64c ((a % 4 * 16 + b / 16) % 64),
                 b64c (b % 16 * 4 % 64)] ++ "="
  | a :: b :: c :: rest =>
      String.mk [b64c (a / 4 % 64), b64c ((a % 4 * 16 + b / 16) % 64),
                 b64c ((b % 16 * 4 + c / 64) % 64), b64c (c % 64)] ++
        base64Encode rest

/-! ## Wire Messages -/

/-- The `metadata` dict attached to each outgoing `WebSocketResponse`,
one constructor per construction site in the source (each site also
stores a fixed `event_type` string, determined by the constructor). -/
inductive WireMeta where
  | audio (audio_size : Nat)
  | transfer (agent_name : Option String)
  | toolCall (tool_name : Option String) (tool_args : Option InfoVal)
  | toolResponse (tool_name : Option String) (tool_response : Option InfoVal)
  | agentResponse (agent_name : Option String)
  | userMessage (user_message : String)
  | sessionInfo (user_id : String) (connection_id : Nat)
  | sessionHistory (history : List HistItem) (resumed : Bool)
deriving DecidableEq, Repr

/-- The pydantic `WebSocketResponse` model (main.py:164).  The wall-clock
`timestamp` field is elided: no contract under verification mentions it. -/
structure WebSocketResponse where
  type : String
  content : String
  session_id : Option String := none
  metadata : Option WireMeta := none
  mime_type : Option String := none
  data : Option String := none
deriving DecidableEq, Repr

/-- Rendering of an optional string in a Python f-string (`None` prints
as `"None"`). -/
def optStr : Option String → String
  | some s => s
  | none => "None"

/-- Python `str` of an arguments dict with string values. -/
def renderArgs (l : List (String × String)) : String :=
  "\x7b" ++ String.intercalate ", " (l.map fun p => "'" ++ p.1 ++ "': '" ++ p.2 ++ "'")
    ++ "\x7d"

/-- Python `str` of an `EventInfo.content` slot as interpolated into
message texts. -/
def pyStrInfo : Option InfoVal → String
  | none => "None"
  | some (.args a) => renderArgs a
  | some (.resp r) => r
  | some (.txt t) => t

/-- Embeds the per-event dispatch of `process_message` (main.py:551-629):
the Wire Message (at most one) sent for a single runtime event.  The
audio branch wins first; otherwise the branch is selected by the
`event_type` that `extract_agent_and_tool_info` computed. -/
def wireOf (sid : String) (e : RtEvent) : Option WebSocketResponse :=
  let audio := audioScan e
  let info := extract_agent_and_tool_info e
  if audioTruthy audio then
    match audio with
    | some bytes =>
        let n := bytes.length
        some { type := "audio",
               content := "Audio response: " ++ toString n ++ " bytes",
               session_id := some sid,
               mime_type := some "audio/pcm",
               data := some (base64Encode bytes),
               metadata := some (.audio n) }
    | none => none
  else
    match info.event_type with
    | some "agent_transfer" =>
        some { type := "agent_transfer",
               content := "🔄 Transferring to " ++ optStr info.agent_name,
               session_id := some sid,
               metadata := some (.transfer info.agent_name) }
    | some "tool_call" =>
        some { type := "tool_call",
               content := "🔧 Using tool: " ++ optStr info.tool_name,
               session_id := some sid,
               metadata := some (.toolCall info.tool_name info.content) }
    | some "tool_response" =>
        let rs := pyStrInfo info.content
        some { type := "tool_response",
               content := "✅ Tool response: " ++ strTake rs 200 ++
                 (if strLen rs > 200 then "..." else ""),
               session_id := some sid,
               metadata := some (.toolResponse info.tool_name info.content) }
    | some "agent_response" =>
        some { type := "agent_response",
               content := if authorTruthy info.agent_name then
                   "🤖 " ++ optStr info.agent_name ++ ": " ++ pyStrInfo info.content
                 else pyStrInfo info.content,
               session_id := some sid,
               metadata := some (.agentResponse info.agent_name) }
    | _ => none

/-! ## Connection Registry (`ConnectionManager`, main.py:352-420)

`active_connections : Dict[str, WebSocket]` and
`session_connections : Dict[str, str]` become association lists; a
WebSocket object becomes a `Socket` stored in a separate handle table so
that mutating it (appending to its delivered-message list) is visible
through every reference.  Connection ids (uuid4 in the source) are drawn
from a fresh counter; both sqlite mirror tables are observability-only
(the code never reads them back) and are not modelled.  The Python
`send_message` returns `None`; the `Bool` this embedding returns is the
observation "the message was handed to the transport", which is what the
specification's `delivered` flag describes. -/

/-- A live transport: whether the handshake was accepted, the messages
delivered to it in order, and whether its sends fail (a dead
transport). -/
structure Socket where
  accepted : Bool
  outbox : List WebSocketResponse
  failSend : Bool
deriving DecidableEq, Repr

/-- The in-memory state of a `ConnectionManager` instance. -/
structure CMState where
  sockets : List (Nat × Socket)
  active_connections : List (Nat × Nat)
  session_connections : List (String × Nat)
  nextId : Nat
deriving DecidableEq, Repr

def initCM : CMState := ⟨[], [], [], 0⟩

/-- Embeds `ConnectionManager.connect` (main.py:357): accept the incoming
websocket (allocated here with the given `failSend` behaviour), generate
a fresh connection id, store it in `active_connections`, and bind the
session to it in `session_connections`, overwriting any prior binding.
The prior connection's entry in `active_connections` is NOT removed. -/
def cmConnect (st : CMState) (failSend : Bool) (session_id user_id : String) :
    Nat × CMState :=
  let ws : Socket := ⟨true, [], failSend⟩
  let connection_id := st.nextId
  (connection_id,
   { sockets := alInsert connection_id ws st.sockets,
     active_connections := alInsert connection_id connection_id st.active_connections,
     session_connections := alInsert session_id connection_id st.session_connections,
     nextId := st.nextId + 1 })

/-- Embeds `ConnectionManager.disconnect` (main.py:377): delete
`connection_id` from `active_connections` (if present) and delete
`session_id` from `session_connections` (if present) -- the latter
unconditionally on the session key, whatever connection it currently
maps to. -/
def cmDisconnect (st : CMState) (connection_id : Nat) (session_id : String) :
    CMState :=
  { st with active_connections := alErase connection_id st.active_connections,
            session_connections := alErase session_id st.session_connections }

/-- Embeds `ConnectionManager.send_message` (main.py:392): look up the
bound connection and its websocket; if any lookup misses, do nothing; if
the transport send raises, clean up the dead connection via
`disconnect`; otherwise deliver the message. -/
def send_message (st : CMState) (session_id : String)
    (response : WebSocketResponse) : CMState × Bool :=
  match alLookup session_id st.session_connections with
  | none => (st, false)
  | some connection_id =>
    match alLookup connection_id st.active_connections with
    | none => (st, false)
    | some wsId =>
      match alLookup wsId st.sockets with
      | none => (st, false)
      | some ws =>
        if ws.failSend then
          (cmDisconnect st connection_id session_id, false)
        else
          ({ st with sockets :=
               alInsert wsId { ws with outbox := ws.outbox ++ [response] } st.sockets },
           true)

/-- The states a `ConnectionManager` can be driven to through its public
operations, starting from the freshly constructed instance. -/
inductive Reachable : CMState → Prop where
  | init : Reachable initCM
  | connect (st : CMState) (fail : Bool) (sid uid : String) :
      Reachable st → Reachable (cmConnect st fail sid uid).2
  | disconnect (st : CMState) (cid : Nat) (sid : String) :
      Reachable st → Reachable (cmDisconnect st cid sid)
  | send (st : CMState) (sid : String) (msg : WebSocketResponse) :
      Reachable st → Reachable (send_message st sid msg).1

/-- The socket handle currently bound to a session, if any. -/
def boundSock (st : CMState) (sid : String) : Option Nat :=
  (alLookup sid st.session_connections).bind fun cid =>
    alLookup cid st.active_connections

/-- The messages delivered so far to socket handle `wsId`. -/
def socketOutbox (st : CMState) (wsId : Nat) : List WebSocketResponse :=
  match alLookup wsId st.sockets with
  | some ws => ws.outbox
  | none => []

/-- A session bound through `cid` to a live socket `ws` at handle `wsId`,
whose transport does not fail. -/
def boundHealthy (st : CMState) (sid : String) (cid wsId : Nat) (ws : Socket) :
    Prop :=
  alLookup sid st.session_connections = some cid ∧
  alLookup cid st.active_connections = some wsId ∧
  alLookup wsId st.sockets = some ws ∧
  ws.failSend = false

/-! ## Session Orchestrator: the non-streaming `process_message`
(main.py:499-667)

External interactions become parameters: `runnerInit` is whether
`self.runner` was initialized; `sessionRes` is the outcome of
`get_or_create_session` (an exception, a falsy session, or a session);
`runnerOut` is the behaviour of `runner.run_async` -- the events it
yields in order, then optionally the exception it raises after them. -/

/-- The session object, reduced to the only field `process_message`
reads. -/
structure Session where
  id : String
deriving DecidableEq, Repr

def errPrefix : String := "I apologize, but I encountered an error: "

/-- The `agent_thinking` indicator sent before dispatching (main.py:517). -/
def thinkingMsg (sid : String) : WebSocketResponse :=
  { type := "agent_thinking",
    content := "Agent is processing your request...",
    session_id := some sid }

/-- The per-event accumulation of `final_response` text and
`function_calls_made` over one event's parts (main.py:635-645): text
parts (even empty ones) are appended; otherwise a function call appends
the marker and records the call. -/
def partsTextCalls : List EvPart → String × List FunctionCall
  | [] => ("", [])
  | p :: ps =>
    let r := partsTextCalls ps
    match p.text with
    | some s => (s ++ r.1, r.2)
    | none =>
      match p.function_call with
      | some fc => ("\n[Used tool: " ++ fc.name ++ "]" ++ r.1, fc :: r.2)
      | none => r

/-- The whole collection branch for one event (main.py:631-655). -/
def collectOf : RtEvent → String × List FunctionCall
  | .ev _ content textAttr =>
    if contentTruthy content then
      match content with
      | some (.content ps) => partsTextCalls ps
      | some (.raw s) =>
          if s != "" && pyStrip s != "" && s != "None" then (s, []) else ("", [])
      | none => ("", [])
    else
      match textAttr with
      | some s => (s, [])
      | none => ("", [])
  | .str s => if pyStrip s != "" then (s, []) else ("", [])

/-- The event loop of `process_message` (main.py:531-655): for each event
in order, send its Wire Message (if any) through the Connection
Registry, and accumulate the final-response text and the tool calls. -/
def processEventsLoop (sid : String) : List RtEvent → CMState →
    CMState × String × List FunctionCall
  | [], st => (st, "", [])
  | e :: rest, st =>
    let st1 := match wireOf sid e with
      | some msg => (send_message st sid msg).1
      | none => st
    let r := processEventsLoop sid rest st1
    ((r.1 : CMState), (collectOf e).1 ++ r.2.1, (collectOf e).2 ++ r.2.2)

/-- The tool-usage summary fallback (main.py:660). -/
def toolSummary (calls : List FunctionCall) : String :=
  "I used " ++ toString calls.length ++ " tool(s) to process your request: " ++
    String.intercalate ", " (calls.map (·.name))

/-- Embeds `ADKManager.process_message` (main.py:499): guard on runner
initialization, resolve the session, send the thinking indicator, run
the event loop, and assemble the final response with its fallbacks; any
exception from session resolution or from the runner is caught and
converted into the apologetic error string. -/
def process_message (runnerInit : Bool)
    (sessionRes : Except String (Option Session))
    (runnerOut : List RtEvent × Option String)
    (st : CMState) (message : String) : String × CMState :=
  if !runnerInit then
    (errPrefix ++ "ADK Manager not properly initialized", st)
  else
    match sessionRes with
    | .error e => (errPrefix ++ e, st)
    | .ok none => (errPrefix ++ "Failed to create or retrieve session", st)
    | .ok (some session) =>
      let st1 := (send_message st session.id (thinkingMsg session.id)).1
      let r := processEventsLoop session.id runnerOut.1 st1
      match runnerOut.2 with
      | some m => (errPrefix ++ m, r.1)
      | none =>
        let fr := pyStrip r.2.1
        let final :=
          if fr = "" ∧ r.2.2 ≠ [] then toolSummary r.2.2
          else if fr = "" then
            "I processed your request. Please let me know if you need anything else."
          else fr
        (final, r.1)

/-! ## Theorems -/

/-- C1 counterexample: with token `"T"` bound to session `"s1"` and user
`"u1"`, unexpired at time 50, a first validation succeeds AND leaves the
registry unchanged, so a second validation succeeds again instead of
failing with reason not_found, and redeeming the same token twice through
the `POST /sessions/resume` operation succeeds both times.  This refutes
the claim that one successful validation invalidates the token. -/
theorem c1_counterexample :
    (validate_resumption_token [("T", ⟨"s1", "u1", 100⟩)] "T" 50).1 =
      .valid "s1" "u1" ∧
    (validate_resumption_token [("T", ⟨"s1", "u1", 100⟩)] "T" 50).2 =
      [("T", ⟨"s1", "u1", 100⟩)] ∧
    (validate_resumption_token
      (validate_resumption_token [("T", ⟨"s1", "u1", 100⟩)] "T" 50).2 "T" 50).1 =
      .valid "s1" "u1" ∧
    (validate_resumption_token
      (validate_resumption_token [("T", ⟨"s1", "u1", 100⟩)] "T" 50).2 "T" 50).1 ≠
      .invalid "not found" ∧
    (resume_session
      ((resume_session [("T", ⟨"s1", "u1", 100⟩)] (fun _ _ => .ok none) "T" 50).2)
      (fun _ _ => .ok none) "T" 50).1 = .ok ⟨"s1", "u1", [], true⟩ :=
  ⟨rfl, rfl, rfl, by decide, rfl⟩

/-- C1 (amended): successful validation does NOT consume a resumption
token -- it returns the bound session id and user id and leaves the
registry unchanged, so a second validation succeeds, and redeeming the
same unexpired token a second time through the session-resume operation
succeeds as well.  A token fails validation with reason not_found (the
code's `"not found"`) only after an explicit `invalidate_resumption_token`
call, which the WebSocket resume path performs after validating. -/
theorem c1_amended (tbl : TokenTable) (token : String) (row : TokenRow) (now : Nat)
    (hfind : alLookup token tbl = some row) (hlive : now < row.expires_at) :
    validate_resumption_token tbl token now =
      (.valid row.session_id row.user_id, tbl) ∧
    (∀ now2, (validate_resumption_token
        (invalidate_resumption_token tbl token) token now2).1 =
        .invalid "not found") ∧
    (∀ fetch, resume_session tbl fetch token now =
        (.ok ⟨row.session_id, row.user_id,
              get_session_history (fetch row.session_id row.user_id), true⟩, tbl) ∧
      (resume_session ((resume_session tbl fetch token now).2) fetch token now).1 =
        .ok ⟨row.session_id, row.user_id,
             get_session_history (fetch row.session_id row.user_id), true⟩) := by
  have hv : validate_resumption_token tbl token now =
      (.valid row.session_id row.user_id, tbl) := by
    unfold validate_resumption_token
    rw [hfind]
    simp [hlive]
  have hres : ∀ fetch, resume_session tbl fetch token now =
      (.ok ⟨row.session_id, row.user_id,
            get_session_history (fetch row.session_id row.user_id), true⟩, tbl) := by
    intro fetch
    unfold resume_session
    rw [hv]
  refine ⟨hv, ?_, ?_⟩
  · intro now2
    unfold validate_resumption_token invalidate_resumption_token
    rw [alLookup_alErase_self]
  · intro fetch
    refine ⟨hres fetch, ?_⟩
    rw [hres fetch]
    rw [hres fetch]

/-- C1 amended witness: the amended theorem applied at a concrete
unexpired token. -/
theorem c1_amended_witness :
    alLookup "T" [("T", (⟨"s1", "u1", 100⟩ : TokenRow))] = some ⟨"s1", "u1", 100⟩ ∧
    50 < 100 ∧
    validate_resumption_token [("T", ⟨"s1", "u1", 100⟩)] "T" 50 =
      (.valid "s1" "u1", [("T", ⟨"s1", "u1", 100⟩)]) ∧
    (validate_resumption_token
      (invalidate_resumption_token [("T", ⟨"s1", "u1", 100⟩)] "T") "T" 50).1 =
      .invalid "not found" :=
  ⟨rfl, by decide,
   (c1_amended [("T", ⟨"s1", "u1", 100⟩)] "T" ⟨"s1", "u1", 100⟩ 50 rfl (by decide)).1,
   (c1_amended [("T", ⟨"s1", "u1", 100⟩)] "T" ⟨"s1", "u1", 100⟩ 50 rfl (by decide)).2.1 50⟩

/-- C4: validating a token whose expiry time has passed (the code's
comparison makes expiry inclusive: valid only while `now < expires_at`)
returns invalid with reason `"expired"` and deletes the row before
returning, so a subsequent validation of the same token returns invalid
with reason `"not found"`. -/
theorem c4_expired_cleanup (tbl : TokenTable) (token : String) (row : TokenRow)
    (now : Nat) (hfind : alLookup token tbl = some row)
    (hexp : ¬ now < row.expires_at) :
    validate_resumption_token tbl token now =
      (.invalid "expired", invalidate_resumption_token tbl token) ∧
    (∀ now2, (validate_resumption_token
        (validate_resumption_token tbl token now).2 token now2).1 =
        .invalid "not found") := by
  have hv : validate_resumption_token tbl token now =
      (.invalid "expired", invalidate_resumption_token tbl token) := by
    unfold validate_resumption_token
    rw [hfind]
    simp [hexp]
  refine ⟨hv, ?_⟩
  intro now2
  rw [hv]
  unfold validate_resumption_token invalidate_resumption_token
  rw [alLookup_alErase_self]

/-- C4 witness: the theorem applied at a concrete token expired at time
100 and validated at time 100. -/
theorem c4_expired_cleanup_witness :
    alLookup "T" [("T", (⟨"s1", "u1", 100⟩ : TokenRow))] = some ⟨"s1", "u1", 100⟩ ∧
    ¬ (100 : Nat) < 100 ∧
    validate_resumption_token [("T", ⟨"s1", "u1", 100⟩)] "T" 100 =
      (.invalid "expired", []) ∧
    (validate_resumption_token
      (validate_resumption_token [("T", ⟨"s1", "u1", 100⟩)] "T" 100).2 "T" 100).1 =
      .invalid "not found" :=
  ⟨rfl, by decide,
   (c4_expired_cleanup [("T", ⟨"s1", "u1", 100⟩)] "T" ⟨"s1", "u1", 100⟩ 100 rfl
      (by decide)).1,
   (c4_expired_cleanup [("T", ⟨"s1", "u1", 100⟩)] "T" ⟨"s1", "u1", 100⟩ 100 rfl
      (by decide)).2 100⟩

/-- C7 counterexample: a storage failure while fetching history and a
nonexistent session produce the SAME result from the Session Store read
path -- both are the empty history -- refuting the claim that the two
outcomes are never conflated. -/
theorem c7_counterexample :
    get_session_history (.error "database failure") = get_session_history (.ok none) ∧
    get_session_history (.ok none) = ([] : List HistItem) :=
  ⟨rfl, rfl⟩

/-- C7 (amended): in the `get_session_history` read path, a nonexistent
session and a storage failure are conflated: every storage error and the
not-found outcome all collapse to the same empty history list, and no
distinct storage-error outcome is propagated to the caller. -/
theorem c7_amended :
    (∀ e, get_session_history (.error e) = []) ∧
    get_session_history (.ok none) = [] ∧
    (∀ e, get_session_history (.error e) = get_session_history (.ok none)) :=
  ⟨fun _ => rfl, rfl, fun _ => rfl⟩

/-- C6: `send_message` on a session with no bound connection returns
undelivered with the state unchanged (the message is silently dropped,
no exception); on a transport whose send fails, it unbinds the dead
connection -- removing both the connection-id entry and the session
binding -- and returns undelivered. -/
theorem c6_send_semantics :
    (∀ st sid msg, alLookup sid st.session_connections = none →
        send_message st sid msg = (st, false)) ∧
    (∀ st sid msg cid wsId ws,
        alLookup sid st.session_connections = some cid →
        alLookup cid st.active_connections = some wsId →
        alLookup wsId st.sockets = some ws →
        ws.failSend = true →
        send_message st sid msg = (cmDisconnect st cid sid, false) ∧
        alLookup sid (cmDisconnect st cid sid).session_connections = none ∧
        alLookup cid (cmDisconnect st cid sid).active_connections = none) := by
  constructor
  · intro st sid msg h
    unfold send_message
    rw [h]
  · intro st sid msg cid wsId ws h1 h2 h3 hf
    have hs : send_message st sid msg = (cmDisconnect st cid sid, false) := by
      unfold send_message
      simp [h1, h2, h3, hf]
    exact ⟨hs, alLookup_alErase_self sid _, alLookup_alErase_self cid _⟩

/-- C6 witness: the unbound case at the initial state, and the dead
transport case at a freshly connected failing transport. -/
theorem c6_send_semantics_witness :
    (alLookup "s" initCM.session_connections = none ∧
     send_message initCM "s" (thinkingMsg "s") = (initCM, false)) ∧
    (send_message (cmConnect initCM true "s" "u").2 "s" (thinkingMsg "s") =
       (cmDisconnect (cmConnect initCM true "s" "u").2 0 "s", false) ∧
     alLookup "s" (cmDisconnect (cmConnect initCM true "s" "u").2 0 "s").session_connections
       = none) :=
  ⟨⟨rfl, c6_send_semantics.1 initCM "s" (thinkingMsg "s") rfl⟩,
   ⟨(c6_send_semantics.2 (cmConnect initCM true "s" "u").2 "s" (thinkingMsg "s")
       0 0 ⟨true, [], true⟩ rfl rfl rfl rfl).1,
    (c6_send_semantics.2 (cmConnect initCM true "s" "u").2 "s" (thinkingMsg "s")
       0 0 ⟨true, [], true⟩ rfl rfl rfl rfl).2.1⟩⟩

/-! ### Connection Registry invariants (C2) -/

/-- Each session id occurs at most once among the keys of
`session_connections`. -/
def AtMostOneBinding (st : CMState) : Prop :=
  ∀ sid, st.session_connections.countP (fun p => decide (p.1 = sid)) ≤ 1

theorem countP_key_alErase_self {K V : Type} [DecidableEq K] (k : K)
    (l : List (K × V)) :
    (alErase k l).countP (fun p => decide (p.1 = k)) = 0 := by
  rw [List.countP_eq_zero]
  intro a ha
  have h2 := (List.mem_filter.mp ha).2
  simp only [decide_not, Bool.not_eq_eq_eq_not, Bool.not_true, decide_eq_false_iff_not] at h2
  simp [h2]

theorem alInsert_atMostOne {K V : Type} [DecidableEq K] (k : K) (v : V)
    (l : List (K × V))
    (h : ∀ k0, l.countP (fun p => decide (p.1 = k0)) ≤ 1) :
    ∀ k0, (alInsert k v l).countP (fun p => decide (p.1 = k0)) ≤ 1 := by
  intro k0
  unfold alInsert
  rw [List.countP_cons]
  by_cases hk : k = k0
  · subst hk
    have hz := countP_key_alErase_self k l
    unfold alErase at hz
    simp [hz]
  · have hp : (decide ((k, v).1 = k0)) = false := by simp [hk]
    rw [hp]
    simp only [Bool.false_eq_true, if_false, Nat.add_zero]
    exact le_trans ((List.filter_sublist l).countP_le _) (h k0)

theorem send_message_sessions (st : CMState) (sid : String)
    (msg : WebSocketResponse) :
    (send_message st sid msg).1.session_connections = st.session_connections ∨
    (send_message st sid msg).1.session_connections =
      alErase sid st.session_connections := by
  unfold send_message
  cases h1 : alLookup sid st.session_connections with
  | none => left; rfl
  | some cid =>
    cases h2 : alLookup cid st.active_connections with
    | none => left; simp [h2]
    | some wsId =>
      cases h3 : alLookup wsId st.sockets with
      | none => left; simp [h2, h3]
      | some ws =>
        by_cases hf : ws.failSend = true
        · right; simp [h2, h3, hf, cmDisconnect]
        · left; simp [h2, h3, hf]

theorem reachable_atMostOne (st : CMState) (h : Reachable st) :
    AtMostOneBinding st := by
  induction h with
  | init => intro sid; simp [initCM]
  | connect st fail sid uid hr ih =>
      intro s
      exact alInsert_atMostOne sid (cmConnect st fail sid uid).1
        st.session_connections ih s
  | disconnect st cid sid hr ih =>
      intro s
      exact le_trans ((List.filter_sublist st.session_connections).countP_le _) (ih s)
  | send st sid msg hr ih =>
      intro s
      rcases send_message_sessions st sid msg with he | he
      · rw [he]; exact ih s
      · rw [he]
        exact le_trans ((List.filter_sublist st.session_connections).countP_le _) (ih s)

/-- C2 counterexample: connect twice to session `"s"` (connection ids 0
then 1, so the binding is `some 1`), then call `disconnect` with the
SUPERSEDED old connection id 0: the claim says the stale id is rejected
with no effect on the new binding, but the session binding to connection
1 is removed. -/
theorem c2_counterexample :
    (cmConnect initCM false "s" "u").1 = 0 ∧
    (cmConnect (cmConnect initCM false "s" "u").2 false "s" "u").1 = 1 ∧
    alLookup "s"
      ((cmConnect (cmConnect initCM false "s" "u").2 false "s" "u").2).session_connections
      = some 1 ∧
    alLookup "s"
      (cmDisconnect ((cmConnect (cmConnect initCM false "s" "u").2 false "s" "u").2)
        0 "s").session_connections = none :=
  ⟨rfl, rfl, rfl, rfl⟩

/-- C2 (amended): at every reachable state of the Connection Registry each
session id has at most one bound connection id, and binding a new
connection to an already-bound session id silently replaces the binding;
a `send` never touches any socket other than the one currently bound, so
the superseded connection receives nothing; but `disconnect` called with
the superseded old connection id is NOT rejected: it unconditionally
removes the session's current binding (to the new connection) as well as
the old id's own `active_connections` entry. -/
theorem c2_amended :
    (∀ st, Reachable st → AtMostOneBinding st) ∧
    (∀ st fail sid uid,
        alLookup sid (cmConnect st fail sid uid).2.session_connections =
          some (cmConnect st fail sid uid).1) ∧
    (∀ st sid msg oid, boundSock st sid ≠ some oid →
        alLookup oid (send_message st sid msg).1.sockets =
          alLookup oid st.sockets) ∧
    (∀ st cid sid,
        alLookup sid (cmDisconnect st cid sid).session_connections = none) := by
  refine ⟨reachable_atMostOne, ?_, ?_, ?_⟩
  · intro st fail sid uid
    exact alLookup_alInsert_self sid _ _
  · intro st sid msg oid hb
    unfold send_message
    cases h1 : alLookup sid st.session_connections with
    | none => rfl
    | some cid =>
      cases h2 : alLookup cid st.active_connections with
      | none => simp [h2]
      | some wsId =>
        cases h3 : alLookup wsId st.sockets with
        | none => simp [h2, h3]
        | some ws =>
          have hne : oid ≠ wsId := by
            intro e
            subst e
            exact hb (by simp [boundSock, h1, h2])
          by_cases hf : ws.failSend = true
          · simp [h2, h3, hf, cmDisconnect]
          · simp only [h2, h3, hf, Bool.false_eq_true, if_false]
            exact alLookup_alInsert_ne _ st.sockets hne
  · intro st cid sid
    exact alLookup_alErase_self sid _

/-- C2 amended witness: the amended theorem applied at the concrete
double-connect state. -/
theorem c2_amended_witness :
    AtMostOneBinding ((cmConnect (cmConnect initCM false "s" "u").2 false "s" "u").2) ∧
    alLookup 0
      (send_message ((cmConnect (cmConnect initCM false "s" "u").2 false "s" "u").2)
        "s" (thinkingMsg "s")).1.sockets =
      alLookup 0
        ((cmConnect (cmConnect initCM false "s" "u").2 false "s" "u").2).sockets ∧
    alLookup "s"
      (cmDisconnect ((cmConnect (cmConnect initCM false "s" "u").2 false "s" "u").2)
        0 "s").session_connections = none :=
  ⟨c2_amended.1 _ (Reachable.connect _ false "s" "u"
      (Reachable.connect _ false "s" "u" Reachable.init)),
   c2_amended.2.2.1 _ "s" (thinkingMsg "s") 0 (by decide),
   c2_amended.2.2.2 _ 0 "s"⟩

/-! ### Ordered delivery through the event loop (C3, C10) -/

theorem send_message_healthy (st : CMState) (sid : String) (cid wsId : Nat)
    (ws : Socket) (msg : WebSocketResponse)
    (h : boundHealthy st sid cid wsId ws) :
    send_message st sid msg =
      ({ st with sockets :=
           alInsert wsId { ws with outbox := ws.outbox ++ [msg] } st.sockets },
       true) := by
  obtain ⟨h1, h2, h3, h4⟩ := h
  unfold send_message
  simp [h1, h2, h3, h4]

theorem boundHealthy_send (st : CMState) (sid : String) (cid wsId : Nat)
    (ws : Socket) (msg : WebSocketResponse)
    (h : boundHealthy st sid cid wsId ws) :
    boundHealthy (send_message st sid msg).1 sid cid wsId
      { ws with outbox := ws.outbox ++ [msg] } := by
  obtain ⟨h1, h2, h3, h4⟩ := h
  rw [send_message_healthy st sid cid wsId ws msg ⟨h1, h2, h3, h4⟩]
  exact ⟨h1, h2, alLookup_alInsert_self wsId _ _, h4⟩

theorem loop_outbox (sid : String) (evs : List RtEvent) :
    ∀ (st : CMState) (cid wsId : Nat) (ws : Socket),
      boundHealthy st sid cid wsId ws →
      ∃ ws2, boundHealthy (processEventsLoop sid evs st).1 sid cid wsId ws2 ∧
        ws2.outbox = ws.outbox ++ evs.flatMap (fun e => (wireOf sid e).toList) := by
  induction evs with
  | nil =>
    intro st cid wsId ws h
    exact ⟨ws, h, by simp [processEventsLoop]⟩
  | cons e rest ih =>
    intro st cid wsId ws h
    cases hw : wireOf sid e with
    | none =>
      obtain ⟨ws2, h2, ho⟩ := ih st cid wsId ws h
      refine ⟨ws2, ?_, ?_⟩
      · simpa [processEventsLoop, hw] using h2
      · simp [ho, hw, List.flatMap_cons]
    | some msg =>
      have hs := send_message_healthy st sid cid wsId ws msg h
      have hh := boundHealthy_send st sid cid wsId ws msg h
      obtain ⟨ws2, h2, ho⟩ := ih (send_message st sid msg).1 cid wsId _ hh
      refine ⟨ws2, ?_, ?_⟩
      · simpa [processEventsLoop, hw] using h2
      · simp [ho, hw, List.flatMap_cons, List.append_assoc]

/-- C3: for a session bound to a healthy transport, running the event
loop of `process_message` over one turn's event sequence delivers to that
transport EXACTLY the per-event Wire Messages concatenated in event
order -- `List.flatMap` of the translator over the events -- so messages
derived from earlier events all precede messages derived from later
events (no reordering), and each event contributes at most one message
(no batching). -/
theorem c3_order_preservation (st : CMState) (sid : String) (evs : List RtEvent)
    (cid wsId : Nat) (ws : Socket) (h : boundHealthy st sid cid wsId ws) :
    (∃ ws2, alLookup wsId (processEventsLoop sid evs st).1.sockets = some ws2 ∧
       ws2.outbox = ws.outbox ++ evs.flatMap (fun e => (wireOf sid e).toList)) ∧
    (∀ e : RtEvent, ((wireOf sid e).toList).length ≤ 1) := by
  obtain ⟨ws2, hb, ho⟩ := loop_outbox sid evs st cid wsId ws h
  exact ⟨⟨ws2, hb.2.2.1, ho⟩, fun e => by cases wireOf sid e <;> simp⟩

/-- C3 witness: a freshly connected healthy transport receives, in order,
exactly the tool-call and tool-response messages of a two-event turn. -/
theorem c3_order_preservation_witness :
    boundHealthy ((cmConnect initCM false "sess" "u").2) "sess" 0 0 ⟨true, [], false⟩ ∧
    ((∃ ws2, alLookup 0
        (processEventsLoop "sess"
          [.ev (some "root")
             (some (.content [{ function_call := some ⟨"search", [("q", "k8s cve")]⟩ }]))
             none,
           .ev (some "root")
             (some (.content [{ function_response := some ⟨"search", "result data"⟩ }]))
             none]
          ((cmConnect initCM false "sess" "u").2)).1.sockets = some ws2 ∧
       ws2.outbox = [] ++
         ([.ev (some "root")
             (some (.content [{ function_call := some ⟨"search", [("q", "k8s cve")]⟩ }]))
             none,
           .ev (some "root")
             (some (.content [{ function_response := some ⟨"search", "result data"⟩ }]))
             none] : List RtEvent).flatMap (fun e => (wireOf "sess" e).toList)) ∧
     (∀ e : RtEvent, ((wireOf "sess" e).toList).length ≤ 1)) :=
  ⟨⟨rfl, rfl, rfl, rfl⟩,
   c3_order_preservation ((cmConnect initCM false "sess" "u").2) "sess" _ 0 0
     ⟨true, [], false⟩ ⟨rfl, rfl, rfl, rfl⟩⟩

theorem send_outbox_ext (st : CMState) (sid : String) (msg : WebSocketResponse)
    (wsId : Nat) :
    ∃ ext, socketOutbox (send_message st sid msg).1 wsId =
        socketOutbox st wsId ++ ext ∧ ∀ x ∈ ext, x = msg := by
  unfold send_message
  cases h1 : alLookup sid st.session_connections with
  | none => exact ⟨[], by simp, by simp⟩
  | some cid =>
    cases h2 : alLookup cid st.active_connections with
    | none => exact ⟨[], by simp [h2], by simp⟩
    | some hndl =>
      cases h3 : alLookup hndl st.sockets with
      | none => exact ⟨[], by simp [h2, h3], by simp⟩
      | some ws =>
        by_cases hf : ws.failSend = true
        · exact ⟨[], by simp [h2, h3, hf, cmDisconnect, socketOutbox], by simp⟩
        · by_cases he : wsId = hndl
          · subst he
            refine ⟨[msg], ?_, by simp⟩
            simp only [h2, h3, hf, Bool.false_eq_true, if_false, socketOutbox]
            rw [alLookup_alInsert_self]
          · refine ⟨[], ?_, by simp⟩
            simp only [h2, h3, hf, Bool.false_eq_true, if_false, socketOutbox]
            rw [alLookup_alInsert_ne _ st.sockets he]
            simp

theorem loop_outbox_ext (sid : String) (evs : List RtEvent) :
    ∀ (st : CMState) (wsId : Nat),
      ∃ ext, socketOutbox (processEventsLoop sid evs st).1 wsId =
          socketOutbox st wsId ++ ext ∧
        ∀ x ∈ ext, ∃ e, e ∈ evs ∧ wireOf sid e = some x := by
  induction evs with
  | nil => intro st wsId; exact ⟨[], by simp [processEventsLoop], by simp⟩
  | cons e rest ih =>
    intro st wsId
    cases hw : wireOf sid e with
    | none =>
      obtain ⟨ext, hex, hall⟩ := ih st wsId
      refine ⟨ext, by simpa [processEventsLoop, hw] using hex, fun x hx => ?_⟩
      obtain ⟨e1, he1, hw1⟩ := hall x hx
      exact ⟨e1, List.mem_cons_of_mem _ he1, hw1⟩
    | some msg =>
      obtain ⟨ext1, hex1, hall1⟩ := send_outbox_ext st sid msg wsId
      obtain ⟨ext2, hex2, hall2⟩ := ih (send_message st sid msg).1 wsId
      refine ⟨ext1 ++ ext2, ?_, ?_⟩
      · simp [processEventsLoop, hw, hex2, hex1, List.append_assoc]
      · intro x hx
        rcases List.mem_append.mp hx with hm | hm
        · exact ⟨e, List.mem_cons_self e rest, by rw [hall1 x hm]; exact hw⟩
        · obtain ⟨e1, he1, hw1⟩ := hall2 x hm
          exact ⟨e1, List.mem_cons_of_mem _ he1, hw1⟩

theorem wireOf_type_ne_error (sid : String) (e : RtEvent)
    (msg : WebSocketResponse) (h : wireOf sid e = some msg) :
    msg.type ≠ "error" := by
  unfold wireOf at h
  dsimp only at h
  split at h
  · split at h
    all_goals first
      | (injection h with h2; subst h2; simp)
      | exact absurd h (by simp)
  · split at h
    all_goals first
      | (injection h with h2; subst h2; simp)
      | exact absurd h (by simp)

/-- C10: `process_message` is total -- every failure mode is caught and
returned as a string beginning with the apologetic error text, never
propagated: an uninitialized runner, a failed or falsy session
resolution, and an exception raised by the runner after streaming some
events all yield `errPrefix ++ reason`; in the first three cases the
Connection Registry is untouched, and in the mid-stream case everything
delivered to any transport during the failed turn has a type other than
`"error"` (no error-type Wire Message is sent for the failure). -/
theorem c10_total_error_handling :
    (∀ sessionRes runnerOut st message,
        process_message false sessionRes runnerOut st message =
          (errPrefix ++ "ADK Manager not properly initialized", st)) ∧
    (∀ e runnerOut st message,
        process_message true (.error e) runnerOut st message = (errPrefix ++ e, st)) ∧
    (∀ runnerOut st message,
        process_message true (.ok none) runnerOut st message =
          (errPrefix ++ "Failed to create or retrieve session", st)) ∧
    (∀ session evs m st message wsId,
        (process_message true (.ok (some session)) (evs, some m) st message).1 =
          errPrefix ++ m ∧
        ∃ ext, socketOutbox
            (process_message true (.ok (some session)) (evs, some m) st message).2 wsId
            = socketOutbox st wsId ++ ext ∧
          ∀ x ∈ ext, x.type ≠ "error") := by
  refine ⟨fun _ _ _ _ => rfl, fun _ _ _ _ => rfl, fun _ _ _ => rfl, ?_⟩
  intro session evs m st message wsId
  constructor
  · rfl
  · have hpm : (process_message true (.ok (some session)) (evs, some m) st message).2 =
        (processEventsLoop session.id evs
          (send_message st session.id (thinkingMsg session.id)).1).1 := rfl
    rw [hpm]
    obtain ⟨ext1, hex1, hall1⟩ :=
      send_outbox_ext st session.id (thinkingMsg session.id) wsId
    obtain ⟨ext2, hex2, hall2⟩ :=
      loop_outbox_ext session.id evs
        (send_message st session.id (thinkingMsg session.id)).1 wsId
    refine ⟨ext1 ++ ext2, by rw [hex2, hex1, List.append_assoc], ?_⟩
    intro x hx
    rcases List.mem_append.mp hx with hm | hm
    · rw [hall1 x hm]
      simp [thinkingMsg]
    · obtain ⟨e1, _, hw1⟩ := hall2 x hm
      exact wireOf_type_ne_error session.id e1 x hw1

/-- C10 witness: a mid-stream runner failure after one text event at the
initial (unconnected) registry state. -/
theorem c10_total_error_handling_witness :
    (process_message true (.ok (some ⟨"s"⟩))
        ([.ev (some "root") (some (.content [{ text := some "Hi there" }])) none],
         some "runtime exploded")
        initCM "hello").1 = errPrefix ++ "runtime exploded" ∧
    ∃ ext, socketOutbox
        (process_message true (.ok (some ⟨"s"⟩))
          ([.ev (some "root") (some (.content [{ text := some "Hi there" }])) none],
           some "runtime exploded")
          initCM "hello").2 0
        = socketOutbox initCM 0 ++ ext ∧
      ∀ x ∈ ext, x.type ≠ "error" :=
  c10_total_error_handling.2.2.2 ⟨"s"⟩
    [.ev (some "root") (some (.content [{ text := some "Hi there" }])) none]
    "runtime exploded" initCM "hello" 0

/-! ### Event Translator classification (C5, C9) -/

/-- Spec-side (C5, from the claim's words): does the event carry a binary
audio payload with mime prefix `audio/`? -/
def specHasAudio (e : RtEvent) : Bool :=
  match eventParts e with
  | some ps => ps.any fun p =>
      match p.inline_data with
      | some d => strStartsWith d.mime_type "audio/" &&
          (match d.data with | some l => !l.isEmpty | none => false)
      | none => false
  | none => false

/-- First nonempty text part, the natural reading of "the event's text
content". -/
def firstTextPart : List EvPart → Option String
  | [] => none
  | p :: ps =>
    match p.text with
    | some t => if t != "" then some t else firstTextPart ps
    | none => firstTextPart ps

def specTextC5 (e : RtEvent) : Option String :=
  match eventParts e with
  | some ps => firstTextPart ps
  | none => none

/-- Spec-side (C5): the classification the claim describes, literally --
fixed precedence audio, then text containing the case-insensitive marker
`"transfer to"`, then tool invocation request, then tool invocation
result, then free text, else nothing. -/
def specClassifyC5 (e : RtEvent) : Option String :=
  if specHasAudio e then some "audio"
  else if (match specTextC5 e with
           | some t => strContains (pyLower t) "transfer to"
           | none => false) then some "agent_transfer"
  else if (match eventParts e with
           | some ps => ps.any fun p => p.function_call.isSome
           | none => false) then some "tool_call"
  else if (match eventParts e with
           | some ps => ps.any fun p => p.function_response.isSome
           | none => false) then some "tool_response"
  else if (specTextC5 e).isSome then some "agent_response"
  else none

/-- An agent-transfer notice as the ADK actually words it: the text does
not contain the substring `"transfer to"`, only `"transferring to"`. -/
def transferTextEvent : RtEvent :=
  .ev (some "root")
    (some (.content [{ text := some "Transferring to: coding_agent" }])) none

/-- C5 counterexample: on the event whose single text part is
`"Transferring to: coding_agent"`, the claim's precedence (whose marker
is only `"transfer to"`) classifies `agent_response`, but the code
classifies `agent_transfer` -- the code also matches the marker
`"transferring to"`, which the claim's rule (2) does not cover. -/
theorem c5_counterexample :
    (wireOf "s" transferTextEvent).map (fun m => m.type) = some "agent_transfer" ∧
    specClassifyC5 transferTextEvent = some "agent_response" ∧
    (some "agent_transfer" : Option String) ≠ some "agent_response" :=
  ⟨rfl, rfl, by decide⟩

/-- Amended-spec scanner (C5): the first part, in part order, carrying a
function call, a function response, or nonempty text -- a function call
checked before a function response before text within one part. -/
def amendedFirstMatch : List EvPart → Option PartClass
  | [] => none
  | p :: ps =>
    match p.function_call, p.function_response, p.text with
    | some fc, _, _ => some (.call fc)
    | none, some fr, _ => some (.resp fr)
    | none, none, some t => if t = "" then amendedFirstMatch ps else some (.txt t)
    | none, none, none => amendedFirstMatch ps

/-- Amended-spec classifier (C5): audio (nonempty bytes of the last
`audio/` part) takes priority; otherwise the first classifiable part
decides -- a function call gives `tool_call`, a function response gives
`tool_response`, text gives `agent_transfer` when it contains the
case-insensitive marker `"transfer to"` OR `"transferring to"` and
`agent_response` otherwise; with no classifiable part, an event with a
truthy author and truthy content still yields `agent_response`, and only
otherwise is no message emitted. -/
def amendedClassifyC5 (e : RtEvent) : Option String :=
  if audioTruthy (audioScan e) then some "audio"
  else
    match (match eventParts e with
           | some ps => amendedFirstMatch ps
           | none => none) with
    | some (.call _) => some "tool_call"
    | some (.resp _) => some "tool_response"
    | some (.txt t) =>
        if transferMarker t then some "agent_transfer" else some "agent_response"
    | none =>
        if authorTruthy (eventAuthor e) && contentTruthy (eventContent e) then
          some "agent_response"
        else none

theorem amendedFirstMatch_eq (ps : List EvPart) :
    amendedFirstMatch ps = firstClass ps := by
  induction ps with
  | nil => rfl
  | cons p t ih =>
    cases hfc : p.function_call with
    | some fc => simp [amendedFirstMatch, firstClass, hfc]
    | none =>
      cases hfr : p.function_response with
      | some fr => simp [amendedFirstMatch, firstClass, hfc, hfr]
      | none =>
        cases ht : p.text with
        | none => simp [amendedFirstMatch, firstClass, hfc, hfr, ht, ih]
        | some s =>
          by_cases hs : s = ""
          · simp [amendedFirstMatch, firstClass, hfc, hfr, ht, hs, ih]
          · simp [amendedFirstMatch, firstClass, hfc, hfr, ht, hs, ih]

/-- C5 (amended): for every runtime event, the type of the Wire Message
the code emits (or its absence) is EXACTLY the amended-spec
classification, and an event whose audio scan produced nonempty bytes
yields the audio message with the base64 payload and the byte length in
its metadata. -/
theorem c5_amended (sid : String) (e : RtEvent) :
    (wireOf sid e).map (fun m => m.type) = amendedClassifyC5 e ∧
    (∀ bytes, audioScan e = some bytes → bytes.isEmpty = false →
      wireOf sid e = some
        { type := "audio",
          content := "Audio response: " ++ toString bytes.length ++ " bytes",
          session_id := some sid,
          metadata := some (.audio bytes.length),
          mime_type := some "audio/pcm",
          data := some (base64Encode bytes) }) := by
  constructor
  · cases e with
    | str s => rfl
    | ev author content textAttr =>
      cases content with
      | none =>
        simp [wireOf, amendedClassifyC5, extract_agent_and_tool_info, audioScan,
          eventParts, audioTruthy, eventAuthor, eventContent, contentTruthy]
      | some c =>
        cases c with
        | raw s =>
          by_cases hauth : authorTruthy author = true
          · by_cases hs : s = ""
            · simp [wireOf, amendedClassifyC5, extract_agent_and_tool_info, audioScan,
                eventParts, audioTruthy, eventAuthor, eventContent, contentTruthy,
                hauth, hs]
            · simp [wireOf, amendedClassifyC5, extract_agent_and_tool_info, audioScan,
                eventParts, audioTruthy, eventAuthor, eventContent, contentTruthy,
                hauth, hs]
          · simp [wireOf, amendedClassifyC5, extract_agent_and_tool_info, audioScan,
              eventParts, audioTruthy, eventAuthor, eventContent, contentTruthy, hauth]
        | content ps =>
          by_cases haud : audioTruthy (audioScanParts ps none) = true
          · cases hsc : audioScanParts ps none with
            | none => rw [hsc] at haud; exact absurd haud (by simp [audioTruthy])
            | some bytes =>
              rw [hsc] at haud
              simp [wireOf, amendedClassifyC5, audioScan, eventParts, hsc, haud]
          · cases hfc : firstClass ps with
            | some pc =>
              cases pc with
              | call fc =>
                simp [wireOf, amendedClassifyC5, extract_agent_and_tool_info, audioScan,
                  eventParts, haud, amendedFirstMatch_eq, hfc]
              | resp fr =>
                simp [wireOf, amendedClassifyC5, extract_agent_and_tool_info, audioScan,
                  eventParts, haud, amendedFirstMatch_eq, hfc]
              | txt t =>
                by_cases hm : transferMarker t = true
                · simp [wireOf, amendedClassifyC5, extract_agent_and_tool_info, audioScan,
                    eventParts, haud, amendedFirstMatch_eq, hfc, hm]
                · simp [wireOf, amendedClassifyC5, extract_agent_and_tool_info, audioScan,
                    eventParts, haud, amendedFirstMatch_eq, hfc, hm]
            | none =>
              by_cases hauth : authorTruthy author = true
              · simp [wireOf, amendedClassifyC5, extract_agent_and_tool_info, audioScan,
                  eventParts, haud, amendedFirstMatch_eq, hfc, hauth, eventAuthor,
                  eventContent, contentTruthy]
              · simp [wireOf, amendedClassifyC5, extract_agent_and_tool_info, audioScan,
                  eventParts, haud, amendedFirstMatch_eq, hfc, hauth, eventAuthor,
                  eventContent, contentTruthy]
  · intro bytes hscan hne
    have haud : audioTruthy (some bytes) = true := by simp [audioTruthy, hne]
    unfold wireOf
    dsimp only
    rw [hscan]
    simp [haud]

/-- C5 amended witness: the amended theorem at the transferring-to text
event (type equality) and at a concrete audio event (audio clause). -/
theorem c5_amended_witness :
    (wireOf "s" transferTextEvent).map (fun m => m.type) =
      amendedClassifyC5 transferTextEvent ∧
    audioScan (.ev (some "root")
        (some (.content [{ inline_data := some ⟨"audio/pcm", some [77, 97, 110]⟩ }]))
        none) = some [77, 97, 110] ∧
    ([77, 97, 110] : List Nat).isEmpty = false ∧
    wireOf "s" (.ev (some "root")
        (some (.content [{ inline_data := some ⟨"audio/pcm", some [77, 97, 110]⟩ }]))
        none) = some
      { type := "audio",
        content := "Audio response: " ++ toString ([77, 97, 110] : List Nat).length
          ++ " bytes",
        session_id := some "s",
        metadata := some (.audio ([77, 97, 110] : List Nat).length),
        mime_type := some "audio/pcm",
        data := some (base64Encode [77, 97, 110]) } :=
  ⟨(c5_amended "s" transferTextEvent).1, rfl, rfl,
   (c5_amended "s" (.ev (some "root")
      (some (.content [{ inline_data := some ⟨"audio/pcm", some [77, 97, 110]⟩ }]))
      none)).2 [77, 97, 110] rfl rfl⟩

/-- C9: for every event the translator classifies as a tool result (its
first classifiable part is a function response) and that carries no audio,
the emitted `tool_response` Wire Message carries the tool name and the
full untruncated result in its metadata, and its content embeds a preview
of the result truncated to at most 200 characters (with an ellipsis
appended exactly when the result was longer). -/
theorem c9_tool_response_preview (sid : String) (author textAttr : Option String)
    (ps : List EvPart) (fr : FunctionResponse)
    (hnoaudio : audioTruthy (audioScanParts ps none) = false)
    (hfc : firstClass ps = some (.resp fr)) :
    ∃ preview, preview = strTake fr.response 200 ∧ strLen preview ≤ 200 ∧
      wireOf sid (.ev author (some (.content ps)) textAttr) = some
        { type := "tool_response",
          content := "✅ Tool response: " ++ preview ++
            (if strLen fr.response > 200 then "..." else ""),
          session_id := some sid,
          metadata := some (.toolResponse (some fr.name) (some (.resp fr.response))) } := by
  refine ⟨strTake fr.response 200, rfl, ?_, ?_⟩
  · simp only [strTake, strLen, List.length_take]
    exact Nat.min_le_left _ _
  · have hinfo : extract_agent_and_tool_info (.ev author (some (.content ps)) textAttr) =
        ⟨some "tool_response", (if authorTruthy author then author else none),
         some fr.name, some (.resp fr.response), false⟩ := by
      simp [extract_agent_and_tool_info, hfc]
    simp [wireOf, audioScan, eventParts, hnoaudio, hinfo, pyStrInfo]

/-- C9 witness: the theorem at a concrete short tool result. -/
theorem c9_tool_response_preview_witness :
    audioTruthy (audioScanParts [{ function_response := some ⟨"search", "result data"⟩ }] none) = false ∧
    firstClass [{ function_response := some ⟨"search", "result data"⟩ }] =
      some (.resp ⟨"search", "result data"⟩) ∧
    ∃ preview, preview = strTake "result data" 200 ∧ strLen preview ≤ 200 ∧
      wireOf "s" (.ev (some "root")
          (some (.content [{ function_response := some ⟨"search", "result data"⟩ }]))
          none) = some
        { type := "tool_response",
          content := "✅ Tool response: " ++ preview ++
            (if strLen "result data" > 200 then "..." else ""),
          session_id := some "s",
          metadata := some (.toolResponse (some "search")
            (some (.resp "result data"))) } :=
  ⟨rfl, rfl,
   c9_tool_response_preview "s" (some "root") none
     [{ function_response := some ⟨"search", "result data"⟩ }]
     ⟨"search", "result data"⟩ rfl rfl⟩

/-! ### The non-streaming final response (C8) -/

/-- The `final_response` text accumulated over a full event sequence. -/
def textAll : List RtEvent → String
  | [] => ""
  | e :: r => (collectOf e).1 ++ textAll r

/-- The `function_calls_made` list accumulated over a full event
sequence. -/
def callsAll : List RtEvent → List FunctionCall
  | [] => []
  | e :: r => (collectOf e).2 ++ callsAll r

theorem processEventsLoop_collect (sid : String) (evs : List RtEvent) :
    ∀ st, (processEventsLoop sid evs st).2 = (textAll evs, callsAll evs) := by
  induction evs with
  | nil => intro st; rfl
  | cons e r ih =>
    intro st
    simp [processEventsLoop, textAll, callsAll, ih]

theorem strData_append (a b : String) : (a ++ b).data = a.data ++ b.data := rfl

theorem mem_dropWhile_of_neg {c : Char} {l : List Char} (hc : c ∈ l)
    (hnw : pyWS c = false) : c ∈ l.dropWhile pyWS := by
  induction l with
  | nil => cases hc
  | cons a t ih =>
    rw [List.dropWhile_cons]
    by_cases ha : pyWS a = true
    · rw [if_pos ha]
      rcases List.mem_cons.mp hc with rfl | hm
      · rw [ha] at hnw; cases hnw
      · exact ih hm
    · rw [if_neg ha]
      exact hc

theorem stripChars_ne_nil {c : Char} {l : List Char} (hc : c ∈ l)
    (hnw : pyWS c = false) : stripChars l ≠ [] := by
  intro h
  unfold stripChars at h
  rw [List.reverse_eq_nil_iff] at h
  have h2 := List.dropWhile_eq_nil_iff.mp h
  have hmem : c ∈ (l.dropWhile pyWS).reverse :=
    List.mem_reverse.mpr (mem_dropWhile_of_neg hc hnw)
  have h3 := h2 c hmem
  rw [hnw] at h3
  cases h3

theorem pyStrip_ne_empty {s : String} {c : Char} (hc : c ∈ s.data)
    (hnw : pyWS c = false) : pyStrip s ≠ "" := by
  intro h
  have hd : stripChars s.data = [] := by
    have := congrArg String.data h
    simpa [pyStrip] using this
  exact stripChars_ne_nil hc hnw hd

theorem partsTextCalls_mem (ps : List EvPart)
    (h : (partsTextCalls ps).2 ≠ []) : '[' ∈ (partsTextCalls ps).1.data := by
  induction ps with
  | nil => exact absurd rfl h
  | cons p t ih =>
    cases hpt : p.text with
    | some s =>
      have h1 : (partsTextCalls (p :: t)).1 = s ++ (partsTextCalls t).1 := by
        simp [partsTextCalls, hpt]
      have h2 : (partsTextCalls (p :: t)).2 = (partsTextCalls t).2 := by
        simp [partsTextCalls, hpt]
      rw [h2] at h
      rw [h1, strData_append]
      exact List.mem_append_right _ (ih h)
    | none =>
      cases hfcall : p.function_call with
      | some fc =>
        have h1 : (partsTextCalls (p :: t)).1 =
            "\n[Used tool: " ++ fc.name ++ "]" ++ (partsTextCalls t).1 := by
          simp [partsTextCalls, hpt, hfcall]
        rw [h1, strData_append, strData_append, strData_append]
        exact List.mem_append_left _
          (List.mem_append_left _ (List.mem_append_left _ (by decide)))
      | none =>
        have h1 : (partsTextCalls (p :: t)).1 = (partsTextCalls t).1 := by
          simp [partsTextCalls, hpt, hfcall]
        have h2 : (partsTextCalls (p :: t)).2 = (partsTextCalls t).2 := by
          simp [partsTextCalls, hpt, hfcall]
        rw [h2] at h
        rw [h1]
        exact ih h

theorem collectOf_mem (e : RtEvent) (h : (collectOf e).2 ≠ []) :
    '[' ∈ (collectOf e).1.data := by
  cases e with
  | str s =>
    refine absurd ?_ h
    simp only [collectOf]
    split <;> rfl
  | ev author content textAttr =>
    cases content with
    | none =>
      refine absurd ?_ h
      cases textAttr <;> simp [collectOf, contentTruthy]
    | some c =>
      cases c with
      | raw s =>
        refine absurd ?_ h
        simp only [collectOf, contentTruthy]
        split
        · split <;> rfl
        · cases textAttr <;> rfl
      | content ps =>
        have he : collectOf (.ev author (some (.content ps)) textAttr) =
            partsTextCalls ps := by
          simp [collectOf, contentTruthy]
        rw [he] at h ⊢
        exact partsTextCalls_mem ps h

theorem callsAll_mem (evs : List RtEvent) (h : callsAll evs ≠ []) :
    '[' ∈ (textAll evs).data := by
  induction evs with
  | nil => exact absurd rfl h
  | cons e r ih =>
    show '[' ∈ ((collectOf e).1 ++ textAll r).data
    rw [strData_append]
    by_cases hc : (collectOf e).2 = []
    · have hr : callsAll r ≠ [] := by
        intro he
        exact h (by simp [callsAll, hc, he])
      exact List.mem_append_right _ (ih hr)
    · exact List.mem_append_left _ (collectOf_mem e hc)

theorem calls_strip_ne (evs : List RtEvent) (h : callsAll evs ≠ []) :
    pyStrip (textAll evs) ≠ "" :=
  pyStrip_ne_empty (callsAll_mem evs h) (by decide)

/-- An event whose only part is a tool call: the runtime used a tool and
produced no text. -/
def toolOnlyEvent : RtEvent :=
  .ev (some "root")
    (some (.content [{ function_call := some ⟨"search", [("q", "k8s cve")]⟩ }])) none

/-- C8 counterexample: on a turn whose single event is a tool call with
no text, `process_message` returns the stripped marker concatenation
`"[Used tool: search]"` -- NOT the tool-usage summary the claim promises
for the tools-but-no-text case, because the marker itself makes the
concatenation nonempty and the summary branch unreachable. -/
theorem c8_counterexample :
    (process_message true (.ok (some ⟨"s"⟩)) ([toolOnlyEvent], none) initCM
        "find cves").1 = "[Used tool: search]" ∧
    (process_message true (.ok (some ⟨"s"⟩)) ([toolOnlyEvent], none) initCM
        "find cves").1 ≠ toolSummary [⟨"search", [("q", "k8s cve")]⟩] := by
  refine ⟨rfl, ?_⟩
  intro hx
  exact absurd (rfl.symm.trans hx) (by decide)

/-- C8 (amended): the non-streaming path returns the stripped
concatenation of every text fragment and per-tool-call marker, falling
back to the message beginning "I processed your request" exactly when
that concatenation strips to empty; the tool-usage-summary branch is
unreachable, because whenever a tool was called the marker leaves the
concatenation nonempty, so a turn with tool calls and no text returns the
marker concatenation itself. -/
theorem c8_amended (session : Session) (evs : List RtEvent) (st : CMState)
    (message : String) :
    ((process_message true (.ok (some session)) (evs, none) st message).1 =
      if pyStrip (textAll evs) = "" then
        "I processed your request. Please let me know if you need anything else."
      else pyStrip (textAll evs)) ∧
    (callsAll evs ≠ [] → pyStrip (textAll evs) ≠ "") := by
  have hl := processEventsLoop_collect session.id evs
    ((send_message st session.id (thinkingMsg session.id)).1)
  constructor
  · by_cases hfr : pyStrip (textAll evs) = ""
    · have hcalls : callsAll evs = [] := by
        by_contra hne
        exact (calls_strip_ne evs hne) hfr
      simp [process_message, hl, hfr, hcalls]
    · simp [process_message, hl, hfr]
  · exact calls_strip_ne evs

/-- C8 amended witness: the amended theorem at the tool-call-only turn,
whose hypothesis (a tool was called) holds. -/
theorem c8_amended_witness :
    ((process_message true (.ok (some ⟨"s"⟩)) ([toolOnlyEvent], none) initCM
        "find cves").1 =
      if pyStrip (textAll [toolOnlyEvent]) = "" then
        "I processed your request. Please let me know if you need anything else."
      else pyStrip (textAll [toolOnlyEvent])) ∧
    callsAll [toolOnlyEvent] ≠ [] ∧
    pyStrip (textAll [toolOnlyEvent]) ≠ "" :=
  ⟨(c8_amended ⟨"s"⟩ [toolOnlyEvent] initCM "find cves").1,
   by decide,
   (c8_amended ⟨"s"⟩ [toolOnlyEvent] initCM "find cves").2 (by decide)⟩

end DevOpsServer
